import Mathlib

/-!
Verification of the gracefulshutdown library (orchestrator in
`gracefulshutdown.go`, AWS lifecycle-hook manager in
`shutdownmanagers/awsmanager`).

The Go code is embedded shallowly: errors are `Option String` (`none` = nil
error), external collaborators (JSON decoding, the AWS API, the network) are
passed in as explicit inputs, goroutine interleavings are parametrised by an
explicit schedule, and the observable behaviour of each function is a trace of
events plus its return value.  Float64 arithmetic in `backOffDuration` is
modelled exactly over `ℚ`; the `time.Duration(float64)` conversion truncates
toward zero, which is modelled by `durTrunc`.
-/

/-! ## Orchestrator (gracefulshutdown.go) -/

/-- A `ShutdownManager` as observed by `StartShutdown`: its `GetName()` value
and the results of its `ShutdownStart()` and `ShutdownFinish()` calls. -/
structure SM where
  name : String
  shutdownStartErr : Option String
  shutdownFinishErr : Option String

/-- Observable events of one run of the orchestrator. -/
inductive GSEvent where
  | shutdownStartCall (err : Option String)
  | callbackRun (i : Nat) (arg : String) (err : Option String)
  | errorReported (e : String)
  | shutdownFinishCall (err : Option String)
  deriving DecidableEq, Repr

/-- Model of `GracefulShutdown.ReportError`: the handler is invoked only when the error
is non-nil and a handler is configured; otherwise nothing happens. -/
def reportErrorTrace (hasHandler : Bool) : Option String → List GSEvent
  | none => []
  | some e => if hasHandler then [GSEvent.errorReported e] else []

/-- The body of the goroutine `StartShutdown` spawns for callback `i`:
run `cbs[i].OnShutdown(sm.GetName())`, then `gs.ReportError` its result. -/
def callbackEvents (hasHandler : Bool) (smName : String)
    (cbs : List (String → Option String)) (i : Nat) : List GSEvent :=
  let err := (cbs.getD i (fun _ => none)) smName
  GSEvent.callbackRun i smName err :: reportErrorTrace hasHandler err

/-- Model of `GracefulShutdown.StartShutdown sm` as the event trace of one run.
`sched` is the order in which the callback goroutines execute (any
permutation of the callback indices); the `wg.Wait()` barrier places every
callback event between the `ShutdownStart` call and the `ShutdownFinish`
call. -/
def startShutdownTrace (hasHandler : Bool) (sm : SM)
    (cbs : List (String → Option String)) (sched : List Nat) : List GSEvent :=
  (GSEvent.shutdownStartCall sm.shutdownStartErr
      :: reportErrorTrace hasHandler sm.shutdownStartErr)
    ++ sched.flatMap (callbackEvents hasHandler sm.name cbs)
    ++ (GSEvent.shutdownFinishCall sm.shutdownFinishErr
      :: reportErrorTrace hasHandler sm.shutdownFinishErr)

/-- Model of `GracefulShutdown.Start` over the list of the managers' `Start(gs)`
results: iterates in registration order and stops at the first error.
Returns `(number of managers whose Start was invoked, returned error)`. -/
def gsStart : List (Option String) → Nat × Option String
  | [] => (0, none)
  | some e :: _ => (1, some e)
  | none :: rest =>
    let p := gsStart rest
    (p.1 + 1, p.2)

/-! ## AwsManager.Start region computation (aws.go) -/

/-- The Go slice expression `availabilityZone[:len(availabilityZone)-1]`:
on the empty string the upper bound is `-1`, which is out of range and
panics; the panic is modelled as `none`. -/
def sliceUpToLast (s : String) : Option String :=
  if s.length = 0 then none else some (s.dropRight 1)

/-- The region-resolution step of `AwsManager.Start`: if `config.Region` is
empty, fetch the availability zone from metadata and strip its last
character.  `none` models a Go panic; `some (.error e)` models `Start`
returning the metadata error; `some (.ok r)` is the region used from then
on. -/
def awsStartRegion (cfgRegion : String) (metadataAZ : Except String String) :
    Option (Except String String) :=
  if cfgRegion ≠ "" then some (Except.ok cfgRegion)
  else
    match metadataAZ with
    | Except.error e => some (Except.error e)
    | Except.ok az =>
      match sliceUpToLast az with
      | none => none
      | some r => some (Except.ok r)

/-! ## AwsManager (shutdownmanagers/awsmanager) -/

/-- The decoded `lifecycleHookMessage` struct. -/
structure LifecycleHookMsg where
  autoScalingGroupName : String
  service : String
  timeField : String
  accountId : String
  lifecycleTransition : String
  requestId : String
  lifecycleActionToken : String
  ec2InstanceId : String
  lifecycleHookName : String
  deriving DecidableEq, Repr

/-- The fields of `AwsManagerConfig` the core logic reads (after `clean`):
`port = 0` disables HTTP, `numForwardRetries`/`numServeRetries` are the
cleaned non-negative retry counts, `backOff` is the float64 base delay
modelled exactly over `ℚ`. -/
structure AwsConfig where
  lifecycleHookName : String
  instanceId : String
  port : Nat
  numForwardRetries : Nat
  numServeRetries : Nat
  backOff : ℚ

/-- The numeric fields of `AwsManagerConfig` before `clean` normalizes
them (`PingTime` as nanoseconds). -/
structure AwsRawNums where
  pingTime : Int
  backOff : ℚ
  numServeRetries : Int
  numForwardRetries : Int
  deriving DecidableEq, Repr

/-- Model of `AwsManagerConfig.clean`: zero fields get the package defaults
(15 min ping, 500 backoff, 3 serve retries, 10 forward retries);
negative retry counts are clamped to 0. -/
def AwsRawNums.clean (c : AwsRawNums) : AwsRawNums :=
  { pingTime := if c.pingTime = 0 then 900000000000 else c.pingTime
    backOff := if c.backOff = 0 then 500 else c.backOff
    numServeRetries :=
      if c.numServeRetries = 0 then 3
      else if c.numServeRetries < 0 then 0 else c.numServeRetries
    numForwardRetries :=
      if c.numForwardRetries = 0 then 10
      else if c.numForwardRetries < 0 then 0 else c.numForwardRetries }

/-- The manager's mutable per-episode fields. -/
structure AwsState where
  lifecycleActionToken : String
  autoscalingGroupName : String
  deriving DecidableEq, Repr

/-- The `CompleteLifecycleActionInput` the API layer builds. -/
structure CompleteActionInput where
  autoScalingGroupName : String
  lifecycleActionResult : String
  lifecycleActionToken : String
  lifecycleHookName : String
  deriving DecidableEq, Repr

/-- Model of `awsApi.CompleteLifecycleAction` (aws_api.go): the input record sent to
the autoscaling API, with the fixed `"CONTINUE"` action result. -/
def apiCompleteInput (hookName group token : String) : CompleteActionInput :=
  { autoScalingGroupName := group
    lifecycleActionResult := "CONTINUE"
    lifecycleActionToken := token
    lifecycleHookName := hookName }

/-- Observable effects of the AwsManager. -/
inductive AwsEffect where
  | getHost (instanceId : String)
  | httpPost (url : String) (body : String)
  | sleep (ns : Int)
  | netListen (addr : String)
  | startShutdown
  | reportError (e : String)
  | deleteMessage
  | sendHeartbeat (group : String) (token : String)
  | waitTick
  | stopTicker
  | completeLifecycleAction (input : CompleteActionInput)
  deriving DecidableEq, Repr

/-- Model of `time.Duration(x)` for a float64 `x`: the conversion to int64 truncates
toward zero. -/
def durTrunc (x : ℚ) : Int := if 0 ≤ x then ⌊x⌋ else -⌊-x⌋

/-- Model of `AwsManager.backOffDuration i` in milliseconds, for Float64 draw
`u ∈ [0,1)`: `rand := u + 0.5`, `try := float64(i+1)`, then
`time.Duration(BackOff*try*rand)` — a truncation to whole milliseconds. -/
def backOffMillis (backOff u : ℚ) (i : Nat) : Int :=
  durTrunc (backOff * ((i : ℚ) + 1) * (u + 1/2))

/-- Model of `AwsManager.backOffDuration i` in nanoseconds: the truncated
millisecond count times `time.Millisecond`. -/
def backOffDuration (backOff u : ℚ) (i : Nat) : Int :=
  backOffMillis backOff u i * 1000000

/-- The url `fmt.Sprintf("http://%s:%d/", host, port)` a forward posts to. -/
def forwardURL (host : String) (port : Nat) : String :=
  "http://" ++ host ++ ":" ++ toString port ++ "/"

/-- The retry loop of `AwsManager.forwardMessage`: attempts are indexed from
`i`, `fuel` is the number of loop iterations left (`NumForwardRetries+1` at
entry), `post j` is the outcome of the `j`-th POST, `u j` the jitter draw
for its backoff sleep.  A failed attempt sleeps `backOffDuration` and
retries; the loop breaks at the first success; the returned error is the
last executed attempt's outcome. -/
def forwardAttempts (backOff : ℚ) (url body : String) (post : Nat → Option String)
    (u : Nat → ℚ) : Nat → Nat → List AwsEffect × Option String
  | _, 0 => ([], none)
  | i, fuel + 1 =>
    match post i with
    | none => ([AwsEffect.httpPost url body], none)
    | some e =>
      let tail := forwardAttempts backOff url body post u (i + 1) fuel
      (AwsEffect.httpPost url body
          :: AwsEffect.sleep (backOffDuration backOff (u i) i) :: tail.1,
        if fuel = 0 then some e else tail.2)

/-- Model of `AwsManager.forwardMessage`: resolve the target host once via
`api.GetHost`; a resolution failure aborts before any POST; otherwise run
the retry loop against `http://host:port/` with the raw message body. -/
def forwardMessage (cfg : AwsConfig) (targetInstanceId body : String)
    (getHost : Except String String) (post : String → Nat → Option String)
    (u : Nat → ℚ) : List AwsEffect × Option String :=
  match getHost with
  | Except.error e => ([AwsEffect.getHost targetInstanceId], some e)
  | Except.ok host =>
    let p := forwardAttempts cfg.backOff (forwardURL host cfg.port) body (post host) u
      0 (cfg.numForwardRetries + 1)
    (AwsEffect.getHost targetInstanceId :: p.1, p.2)

/-- Model of `AwsManager.handleMessage`: decode, check hook name, check the
terminating transition, then either accept (store token/group, trigger an
async `StartShutdown`, return true), forward (port configured, reporting a
failed forward's error, return true), or reject (return false).
`decode` is the result of the JSON decode of `body`. -/
def handleMessage (cfg : AwsConfig) (st : AwsState) (body : String)
    (decode : Option LifecycleHookMsg) (getHost : Except String String)
    (post : String → Nat → Option String) (u : Nat → ℚ) :
    AwsState × List AwsEffect × Bool :=
  match decode with
  | none => (st, [], false)
  | some m =>
    if m.lifecycleHookName ≠ cfg.lifecycleHookName then (st, [], false)
    else if m.lifecycleTransition ≠ "autoscaling:EC2_INSTANCE_TERMINATING" then
      (st, [], false)
    else if m.ec2InstanceId = cfg.instanceId then
      ({ lifecycleActionToken := m.lifecycleActionToken
         autoscalingGroupName := m.autoScalingGroupName },
        [AwsEffect.startShutdown], true)
    else if cfg.port ≠ 0 then
      let f := forwardMessage cfg m.ec2InstanceId body getHost post u
      (st, f.1 ++ (match f.2 with
        | some e => [AwsEffect.reportError e]
        | none => []), true)
    else (st, [], false)

/-- One iteration of `AwsManager.listenSQS`: report the receive error, skip
nil messages, otherwise handle the body and delete the message when
`handleMessage` returned true.  `deleteRes` is the outcome of that
`DeleteMessage` call — the Go code discards it. -/
def listenSQSIter (cfg : AwsConfig) (st : AwsState)
    (recvErr : Option String) (msgBody : Option String)
    (decode : Option LifecycleHookMsg) (getHost : Except String String)
    (post : String → Nat → Option String) (u : Nat → ℚ)
    (deleteRes : Option String) : AwsState × List AwsEffect :=
  let reports := match recvErr with
    | some e => [AwsEffect.reportError e]
    | none => []
  match msgBody with
  | none => (st, reports)
  | some body =>
    let h := handleMessage cfg st body decode getHost post u
    (h.1, reports ++ h.2.1 ++ (if h.2.2 then [AwsEffect.deleteMessage] else []))

/-- Model of `AwsManager.ServeHTTP`: a failed body read answers 400; otherwise the
status is 200 when `handleMessage` accepted or forwarded, 400 when it
rejected. -/
def serveHTTP (cfg : AwsConfig) (st : AwsState)
    (bodyRead : Except String String) (decode : Option LifecycleHookMsg)
    (getHost : Except String String) (post : String → Nat → Option String)
    (u : Nat → ℚ) : AwsState × List AwsEffect × Nat :=
  match bodyRead with
  | Except.error _ => (st, [], 400)
  | Except.ok body =>
    let h := handleMessage cfg st body decode getHost post u
    (h.1, h.2.1, if h.2.2 then 200 else 400)

/-- The bind-retry loop of `AwsManager.listenHTTP`: the same loop shape as
the forward loop, binding `":port"`, sleeping `backOffDuration` after each
failed attempt. -/
def listenHTTPAttempts (backOff : ℚ) (port : Nat) (bindRes : Nat → Option String)
    (u : Nat → ℚ) : Nat → Nat → List AwsEffect × Option String
  | _, 0 => ([], none)
  | i, fuel + 1 =>
    match bindRes i with
    | none => ([AwsEffect.netListen (":" ++ toString port)], none)
    | some e =>
      let tail := listenHTTPAttempts backOff port bindRes u (i + 1) fuel
      (AwsEffect.netListen (":" ++ toString port)
          :: AwsEffect.sleep (backOffDuration backOff (u i) i) :: tail.1,
        if fuel = 0 then some e else tail.2)

/-- Model of `AwsManager.listenHTTP`: bind with `NumServeRetries+1` attempts. -/
def listenHTTP (cfg : AwsConfig) (bindRes : Nat → Option String)
    (u : Nat → ℚ) : List AwsEffect × Option String :=
  listenHTTPAttempts cfg.backOff cfg.port bindRes u 0 (cfg.numServeRetries + 1)

/-- One iteration of the heartbeat goroutine spawned by
`AwsManager.ShutdownStart`: send a heartbeat with the stored group/token,
report its error, then block on the ticker channel. -/
def heartbeatIter (st : AwsState) (hb : Nat → Option String) (j : Nat) :
    List AwsEffect :=
  AwsEffect.sendHeartbeat st.autoscalingGroupName st.lifecycleActionToken
    :: ((match hb j with
      | some e => [AwsEffect.reportError e]
      | none => []) ++ [AwsEffect.waitTick])

/-- The first `n` iterations of the heartbeat goroutine. -/
def heartbeatTrace (st : AwsState) (hb : Nat → Option String) (n : Nat) :
    List AwsEffect :=
  (List.range n).flatMap (heartbeatIter st hb)

/-- Model of `AwsManager.ShutdownStart`: starts the ticker, spawns the heartbeat
goroutine (observed for `n` iterations), and returns nil. -/
def shutdownStart (st : AwsState) (hb : Nat → Option String) (n : Nat) :
    List AwsEffect × Option String :=
  (heartbeatTrace st hb n, none)

/-- Model of `AwsManager.ShutdownFinish`: stop the ticker, then one
`CompleteLifecycleAction` call (result `"CONTINUE"`, stored group/token),
whose error is returned as is. -/
def shutdownFinish (hookName : String) (st : AwsState)
    (completeErr : Option String) : List AwsEffect × Option String :=
  ([AwsEffect.stopTicker,
    AwsEffect.completeLifecycleAction
      (apiCompleteInput hookName st.autoscalingGroupName st.lifecycleActionToken)],
    completeErr)

/-! ## Theorems -/

/-- C4: `GracefulShutdown.Start` calls the managers' `Start` in registration
order; if the `i`-th manager fails with `e` (all earlier ones succeeding),
exactly the first `i+1` managers were started and the same error `e` is
returned; if all succeed, all are started and `nil` is returned. -/
theorem gsStart_failFast (mgrs : List (Option String)) :
    (∀ i e, i < mgrs.length →
      (∀ j, j < i → mgrs.getD j none = none) →
      mgrs.getD i none = some e →
      gsStart mgrs = (i + 1, some e))
    ∧ ((∀ j, j < mgrs.length → mgrs.getD j none = none) →
      gsStart mgrs = (mgrs.length, none)) := by
  induction mgrs with
  | nil =>
    refine ⟨fun i e hi _ _ => absurd hi (by simp), fun _ => rfl⟩
  | cons x rest ih =>
    constructor
    · intro i e hi hfirst herr
      cases i with
      | zero =>
        simp only [List.getD_cons_zero] at herr
        subst herr
        rfl
      | succ i' =>
        have hx : x = none := by
          have := hfirst 0 (Nat.succ_pos i')
          simpa using this
        subst hx
        have hrec := ih.1 i' e (by simpa using hi)
          (fun j hj => by
            have := hfirst (j + 1) (Nat.succ_lt_succ hj)
            simpa using this)
          (by simpa using herr)
        simp [gsStart, hrec]
    · intro hall
      have hx : x = none := by
        have := hall 0 (by simp)
        simpa using this
      subst hx
      have hrec := ih.2 (fun j hj => by
        have := hall (j + 1) (by simpa using Nat.succ_lt_succ hj)
        simpa using this)
      simp [gsStart, hrec]

/-- C4 witness: with managers `[ok, fail "boom", ok]`, exactly two are
started and the error `"boom"` is returned. -/
theorem gsStart_failFast_witness :
    gsStart [none, some "boom", none] = (2, some "boom") :=
  (gsStart_failFast [none, some "boom", none]).1 1 "boom" (by decide)
    (by decide) (by decide)

/-- The event of callback `i`'s run in a `StartShutdown` trace: callback `i`
invoked with the triggering manager's name. -/
def cbEvent (sm : SM) (cbs : List (String → Option String)) (i : Nat) : GSEvent :=
  GSEvent.callbackRun i sm.name ((cbs.getD i (fun _ => none)) sm.name)

/-- The `ReportError` model only ever emits handler invocations. -/
theorem reportErrorTrace_mem (h : Bool) (err : Option String) (e : GSEvent)
    (he : e ∈ reportErrorTrace h err) : ∃ s, e = GSEvent.errorReported s := by
  cases err with
  | none => simp [reportErrorTrace] at he
  | some s =>
    cases h with
    | false => simp [reportErrorTrace] at he
    | true =>
      simp [reportErrorTrace] at he
      exact ⟨s, he⟩

/-- The callback fan-out block contains only callback runs (with the
manager's name as argument) and handler invocations. -/
theorem callbackBlock_mem (hasHandler : Bool) (name : String)
    (cbs : List (String → Option String)) (sched : List Nat) (e : GSEvent)
    (he : e ∈ sched.flatMap (callbackEvents hasHandler name cbs)) :
    (∃ i err, e = GSEvent.callbackRun i name err)
    ∨ ∃ s, e = GSEvent.errorReported s := by
  rw [List.mem_flatMap] at he
  obtain ⟨i, _, hmem⟩ := he
  simp only [callbackEvents, List.mem_cons] at hmem
  rcases hmem with h | h
  · exact Or.inl ⟨i, _, h⟩
  · exact Or.inr (reportErrorTrace_mem _ _ _ h)

/-- Callback `i`'s event occurs in the fan-out block once per occurrence of
`i` in the schedule. -/
theorem count_cbEvent_flatMap (hasHandler : Bool) (sm : SM)
    (cbs : List (String → Option String)) (i : Nat) (sched : List Nat) :
    (sched.flatMap (callbackEvents hasHandler sm.name cbs)).count (cbEvent sm cbs i)
      = sched.count i := by
  induction sched with
  | nil => rfl
  | cons j t ih =>
    have hrep : (reportErrorTrace hasHandler
        ((cbs.getD j (fun _ => none)) sm.name)).count (cbEvent sm cbs i) = 0 := by
      rw [List.count_eq_zero]
      intro hmem
      obtain ⟨s, hs⟩ := reportErrorTrace_mem _ _ _ hmem
      simp [cbEvent] at hs
    have hblock : (callbackEvents hasHandler sm.name cbs j).count (cbEvent sm cbs i)
        = if i = j then 1 else 0 := by
      by_cases hij : i = j
      · subst hij
        have hsplit : callbackEvents hasHandler sm.name cbs i =
            cbEvent sm cbs i
              :: reportErrorTrace hasHandler ((cbs.getD i (fun _ => none)) sm.name) :=
          rfl
        rw [hsplit, List.count_cons_self, hrep, if_pos rfl]
      · simp only [callbackEvents]
        rw [List.count_cons_of_ne (by simp [cbEvent, hij]), hrep, if_neg hij]
    rw [List.flatMap_cons, List.count_append, hblock, ih, List.count_cons]
    by_cases hij : i = j <;> simp [hij] <;> omega

/-- C1: one run of `GracefulShutdown.StartShutdown sm`, under any execution
order of the callback goroutines: the `ShutdownStart` call is the first
event; every registered callback runs exactly once, receiving `sm.GetName()`;
`ShutdownFinish` is called exactly once, and only after the `ShutdownStart`
call and after every callback has returned — for every list of callbacks,
including ones that return errors, so a callback's error never prevents the
other callbacks or the `ShutdownFinish` call. -/
theorem startShutdown_protocol (hasHandler : Bool) (sm : SM)
    (cbs : List (String → Option String)) (sched : List Nat)
    (hperm : sched.Perm (List.range cbs.length)) :
    (startShutdownTrace hasHandler sm cbs sched).head? =
      some (GSEvent.shutdownStartCall sm.shutdownStartErr)
    ∧ (∀ i, i < cbs.length →
      (startShutdownTrace hasHandler sm cbs sched).count (cbEvent sm cbs i) = 1)
    ∧ (startShutdownTrace hasHandler sm cbs sched).count
        (GSEvent.shutdownFinishCall sm.shutdownFinishErr) = 1
    ∧ (∀ i, i < cbs.length →
      (startShutdownTrace hasHandler sm cbs sched).indexOf
          (GSEvent.shutdownStartCall sm.shutdownStartErr)
        < (startShutdownTrace hasHandler sm cbs sched).indexOf (cbEvent sm cbs i))
    ∧ (∀ i, i < cbs.length →
      (startShutdownTrace hasHandler sm cbs sched).indexOf (cbEvent sm cbs i)
        < (startShutdownTrace hasHandler sm cbs sched).indexOf
            (GSEvent.shutdownFinishCall sm.shutdownFinishErr)) := by
  set A : List GSEvent := GSEvent.shutdownStartCall sm.shutdownStartErr
      :: reportErrorTrace hasHandler sm.shutdownStartErr with hA
  set B : List GSEvent := sched.flatMap (callbackEvents hasHandler sm.name cbs)
    with hB
  set C : List GSEvent := GSEvent.shutdownFinishCall sm.shutdownFinishErr
      :: reportErrorTrace hasHandler sm.shutdownFinishErr with hC
  have htr : startShutdownTrace hasHandler sm cbs sched = A ++ B ++ C := rfl
  have hschedCount : ∀ i, i < cbs.length → sched.count i = 1 := by
    intro i hi
    rw [hperm.count_eq]
    exact List.count_eq_one_of_mem (List.nodup_range _) (List.mem_range.mpr hi)
  have hcbA : ∀ i, cbEvent sm cbs i ∉ A := by
    intro i hmem
    rw [hA, List.mem_cons] at hmem
    rcases hmem with h | h
    · simp [cbEvent] at h
    · obtain ⟨s, hs⟩ := reportErrorTrace_mem _ _ _ h
      simp [cbEvent] at hs
  have hcbC : ∀ i, cbEvent sm cbs i ∉ C := by
    intro i hmem
    rw [hC, List.mem_cons] at hmem
    rcases hmem with h | h
    · simp [cbEvent] at h
    · obtain ⟨s, hs⟩ := reportErrorTrace_mem _ _ _ h
      simp [cbEvent] at hs
  have hfinA : GSEvent.shutdownFinishCall sm.shutdownFinishErr ∉ A := by
    intro hmem
    rw [hA, List.mem_cons] at hmem
    rcases hmem with h | h
    · simp at h
    · obtain ⟨s, hs⟩ := reportErrorTrace_mem _ _ _ h
      simp at hs
  have hfinB : GSEvent.shutdownFinishCall sm.shutdownFinishErr ∉ B := by
    intro hmem
    rcases callbackBlock_mem _ _ _ _ _ hmem with ⟨i, err, h⟩ | ⟨s, h⟩ <;> simp at h
  have hstartB : GSEvent.shutdownStartCall sm.shutdownStartErr ∉ B := by
    intro hmem
    rcases callbackBlock_mem _ _ _ _ _ hmem with ⟨i, err, h⟩ | ⟨s, h⟩ <;> simp at h
  have hcbB : ∀ i, i < cbs.length → cbEvent sm cbs i ∈ B := by
    intro i hi
    have : B.count (cbEvent sm cbs i) = 1 := by
      rw [hB, count_cbEvent_flatMap, hschedCount i hi]
    exact List.count_pos_iff.mp (by omega)
  have hcntA : ∀ i, A.count (cbEvent sm cbs i) = 0 :=
    fun i => List.count_eq_zero.mpr (hcbA i)
  have hcntC : ∀ i, C.count (cbEvent sm cbs i) = 0 :=
    fun i => List.count_eq_zero.mpr (hcbC i)
  refine ⟨?_, ?_, ?_, ?_, ?_⟩
  · rw [htr, hA]
    rfl
  · intro i hi
    rw [htr, List.count_append, List.count_append, hcntA i, hcntC i,
      hB, count_cbEvent_flatMap, hschedCount i hi]
  · rw [htr, List.count_append, List.count_append,
      List.count_eq_zero.mpr hfinA, List.count_eq_zero.mpr hfinB, hC,
      List.count_cons_self, List.count_eq_zero.mpr (fun hmem => by
        obtain ⟨s, hs⟩ := reportErrorTrace_mem _ _ _ hmem
        simp at hs)]
  · intro i hi
    rw [htr]
    have hstartA : GSEvent.shutdownStartCall sm.shutdownStartErr ∈ A := by
      rw [hA]; exact List.mem_cons_self _ _
    have h1 : (A ++ B ++ C).indexOf (GSEvent.shutdownStartCall sm.shutdownStartErr)
        = 0 := by
      rw [List.indexOf_append_of_mem (List.mem_append.mpr (Or.inl hstartA)),
        List.indexOf_append_of_mem hstartA, hA, List.indexOf_cons_self]
    have h2 : 0 < (A ++ B ++ C).indexOf (cbEvent sm cbs i) := by
      rw [List.indexOf_append_of_mem
          (List.mem_append.mpr (Or.inr (hcbB i hi))),
        List.indexOf_append_of_not_mem (hcbA i)]
      have : 0 < A.length := by rw [hA]; simp
      omega
    omega
  · intro i hi
    rw [htr]
    have h1 : (A ++ B ++ C).indexOf (cbEvent sm cbs i) < (A ++ B).length := by
      rw [List.indexOf_append_of_mem (List.mem_append.mpr (Or.inr (hcbB i hi)))]
      exact List.indexOf_lt_length.mpr (List.mem_append.mpr (Or.inr (hcbB i hi)))
    have h2 : (A ++ B).length ≤ (A ++ B ++ C).indexOf
        (GSEvent.shutdownFinishCall sm.shutdownFinishErr) := by
      rw [List.indexOf_append_of_not_mem (fun hmem =>
        (List.mem_append.mp hmem).elim hfinA hfinB)]
      omega
    omega

/-- C1 witness: two callbacks (one failing), run in reversed order: callback
0 still runs exactly once, after the `ShutdownStart` call and before the
`ShutdownFinish` call. -/
theorem startShutdown_protocol_witness :
    ((startShutdownTrace true ⟨"posix", none, none⟩
        [fun _ => some "cb-err", fun _ => none] [1, 0]).count
      (cbEvent ⟨"posix", none, none⟩ [fun _ => some "cb-err", fun _ => none] 0) = 1)
    ∧ ((startShutdownTrace true ⟨"posix", none, none⟩
        [fun _ => some "cb-err", fun _ => none] [1, 0]).indexOf
          (cbEvent ⟨"posix", none, none⟩ [fun _ => some "cb-err", fun _ => none] 0)
      < (startShutdownTrace true ⟨"posix", none, none⟩
        [fun _ => some "cb-err", fun _ => none] [1, 0]).indexOf
          (GSEvent.shutdownFinishCall none)) := by
  have h := startShutdown_protocol true ⟨"posix", none, none⟩
    [fun _ => some "cb-err", fun _ => none] [1, 0] (by decide)
  exact ⟨h.2.1 0 (by decide), h.2.2.2.2 0 (by decide)⟩

/-- Every event of the forward retry loop is a POST of the given body to the
given url, or a sleep. -/
theorem forwardAttempts_mem (B : ℚ) (url body : String) (post : Nat → Option String)
    (u : Nat → ℚ) :
    ∀ fuel i e, e ∈ (forwardAttempts B url body post u i fuel).1 →
      e = AwsEffect.httpPost url body ∨ ∃ d, e = AwsEffect.sleep d := by
  intro fuel
  induction fuel with
  | zero => intro i e he; simp [forwardAttempts] at he
  | succ f ih =>
    intro i e he
    simp only [forwardAttempts] at he
    cases hpost : post i with
    | none =>
      rw [hpost] at he
      simp at he
      exact Or.inl he
    | some err =>
      rw [hpost] at he
      simp at he
      rcases he with h | h | h
      · exact Or.inl h
      · exact Or.inr ⟨_, h⟩
      · exact ih (i + 1) e h

/-- Counting POSTs past the leading post-and-sleep pair of a failed
attempt. -/
theorem count_post_cons (url body : String) (d : Int) (l : List AwsEffect) :
    (AwsEffect.httpPost url body :: AwsEffect.sleep d :: l).count
      (AwsEffect.httpPost url body) = l.count (AwsEffect.httpPost url body) + 1 := by
  rw [List.count_cons_self, List.count_cons_of_ne (by simp)]

/-- The forward retry loop makes at most `fuel` POST attempts. -/
theorem forwardAttempts_count_le (B : ℚ) (url body : String)
    (post : Nat → Option String) (u : Nat → ℚ) :
    ∀ fuel i,
      ((forwardAttempts B url body post u i fuel).1.count
        (AwsEffect.httpPost url body)) ≤ fuel := by
  intro fuel
  induction fuel with
  | zero => intro i; simp [forwardAttempts]
  | succ f ih =>
    intro i
    simp only [forwardAttempts]
    cases hpost : post i with
    | none => simp
    | some err =>
      have := ih (i + 1)
      simp only [count_post_cons]
      omega

/-- If the attempts starting at `i` fail `k` times and then succeed, the loop
makes exactly `k+1` POSTs and ends with a nil error. -/
theorem forwardAttempts_firstSuccess (B : ℚ) (url body : String)
    (post : Nat → Option String) (u : Nat → ℚ) :
    ∀ k i fuel, k < fuel →
      (∀ j, j < k → ∃ e, post (i + j) = some e) →
      post (i + k) = none →
      ((forwardAttempts B url body post u i fuel).1.count
          (AwsEffect.httpPost url body) = k + 1)
      ∧ (forwardAttempts B url body post u i fuel).2 = none := by
  intro k
  induction k with
  | zero =>
    intro i fuel hk hfail hsucc
    cases fuel with
    | zero => omega
    | succ f =>
      simp only [Nat.add_zero] at hsucc
      simp [forwardAttempts, hsucc]
  | succ k' ih =>
    intro i fuel hk hfail hsucc
    cases fuel with
    | zero => omega
    | succ f =>
      obtain ⟨e0, he0⟩ := hfail 0 (Nat.succ_pos k')
      rw [Nat.add_zero] at he0
      have hrec := ih (i + 1) f (by omega)
        (fun j hj => by
          obtain ⟨e, he⟩ := hfail (j + 1) (by omega)
          have harith : i + (j + 1) = i + 1 + j := by omega
          rw [harith] at he
          exact ⟨e, he⟩)
        (by
          have harith : i + (k' + 1) = i + 1 + k' := by omega
          rw [harith] at hsucc
          exact hsucc)
      simp only [forwardAttempts, he0]
      have hf0 : f ≠ 0 := by omega
      exact ⟨by rw [count_post_cons, hrec.1], by simp [hf0, hrec.2]⟩

/-- If every allowed attempt fails, the loop makes exactly `fuel` POSTs and
returns the error of the last attempt. -/
theorem forwardAttempts_allFail (B : ℚ) (url body : String)
    (post : Nat → Option String) (u : Nat → ℚ) (es : Nat → String) :
    ∀ fuel i, 1 ≤ fuel →
      (∀ j, j < fuel → post (i + j) = some (es (i + j))) →
      ((forwardAttempts B url body post u i fuel).1.count
          (AwsEffect.httpPost url body) = fuel)
      ∧ (forwardAttempts B url body post u i fuel).2 = some (es (i + (fuel - 1))) := by
  intro fuel
  induction fuel with
  | zero => intro i h; omega
  | succ f ih =>
    intro i _ hfail
    have h0 : post i = some (es i) := by
      have := hfail 0 (Nat.succ_pos f)
      simpa using this
    by_cases hf0 : f = 0
    · subst hf0
      simp [forwardAttempts, h0, count_post_cons]
    · have hrec := ih (i + 1) (by omega) (fun j hj => by
        have h := hfail (j + 1) (by omega)
        have harith : i + (j + 1) = i + 1 + j := by omega
        rw [harith] at h
        exact h)
      simp only [forwardAttempts, h0]
      constructor
      · rw [count_post_cons, hrec.1]
      · have h2 := hrec.2
        have harith : i + 1 + (f - 1) = i + (f + 1 - 1) := by omega
        rw [harith] at h2
        simp [hf0, h2]

/-- A non-empty string has non-zero length. -/
theorem strLength_ne_zero (s : String) (h : s ≠ "") : s.length ≠ 0 := by
  intro h0
  apply h
  cases s with
  | mk data =>
    have hd : data = [] := List.length_eq_zero.mp (by simpa using h0)
    subst hd
    rfl

/-- C10: the region computation of `AwsManager.Start` strips exactly the last
character of the availability-zone metadata value; when that value is the
empty string (and no region was pre-configured) the slice bound is out of
range and the code panics (`none`), so `Start` is safe only when the
metadata value is non-empty. -/
theorem awsStartRegion_safety (az : String) :
    (awsStartRegion "" (Except.ok az) = none ↔ az = "")
    ∧ (az ≠ "" →
      awsStartRegion "" (Except.ok az) = some (Except.ok (az.dropRight 1))) := by
  constructor
  · constructor
    · intro h
      by_contra hne
      have hlen : az.length ≠ 0 := strLength_ne_zero az hne
      simp [awsStartRegion, sliceUpToLast, hlen] at h
    · intro h
      subst h
      rfl
  · intro hne
    have hlen : az.length ≠ 0 := strLength_ne_zero az hne
    simp [awsStartRegion, sliceUpToLast, hlen]

/-- C10 witness: `"us-east-1a"` yields region `"us-east-1"`, and the empty
availability zone panics. -/
theorem awsStartRegion_safety_witness :
    awsStartRegion "" (Except.ok "us-east-1a") = some (Except.ok "us-east-1") :=
  (awsStartRegion_safety "us-east-1a").2 (by decide)

/-- C2: a message that decodes, has the configured hook name, the terminating
transition, and the manager's own instance id is accepted: the token and group
are stored, exactly one (async) `StartShutdown` is triggered, `handleMessage`
returns true, and the SQS loop deletes the message exactly once. -/
theorem handleMessage_accept (cfg : AwsConfig) (st : AwsState) (body : String)
    (m : LifecycleHookMsg) (getHost : Except String String)
    (post : String → Nat → Option String) (u : Nat → ℚ)
    (recvErr deleteRes : Option String)
    (hhook : m.lifecycleHookName = cfg.lifecycleHookName)
    (htrans : m.lifecycleTransition = "autoscaling:EC2_INSTANCE_TERMINATING")
    (hinst : m.ec2InstanceId = cfg.instanceId) :
    handleMessage cfg st body (some m) getHost post u =
      ({ lifecycleActionToken := m.lifecycleActionToken
         autoscalingGroupName := m.autoScalingGroupName },
        [AwsEffect.startShutdown], true)
    ∧ ((listenSQSIter cfg st recvErr (some body) (some m) getHost post u
        deleteRes).2.count AwsEffect.deleteMessage = 1)
    ∧ ((listenSQSIter cfg st recvErr (some body) (some m) getHost post u
        deleteRes).2.count AwsEffect.startShutdown = 1) := by
  have h1 : handleMessage cfg st body (some m) getHost post u =
      ({ lifecycleActionToken := m.lifecycleActionToken
         autoscalingGroupName := m.autoScalingGroupName },
        [AwsEffect.startShutdown], true) := by
    simp [handleMessage, hhook, htrans, hinst]
  refine ⟨h1, ?_, ?_⟩ <;>
    cases recvErr <;> simp [listenSQSIter, h1, List.count_cons]

/-- C2 witness: an accepted message on a concrete manager. -/
theorem handleMessage_accept_witness :
    handleMessage
        { lifecycleHookName := "hook", instanceId := "i-1", port := 0,
          numForwardRetries := 10, numServeRetries := 3, backOff := 500 }
        { lifecycleActionToken := "", autoscalingGroupName := "" } "raw"
        (some { autoScalingGroupName := "grp", service := "", timeField := "",
                accountId := "", lifecycleTransition := "autoscaling:EC2_INSTANCE_TERMINATING",
                requestId := "", lifecycleActionToken := "tok",
                ec2InstanceId := "i-1", lifecycleHookName := "hook" })
        (Except.error "nohost") (fun _ _ => none) (fun _ => 0) =
      ({ lifecycleActionToken := "tok", autoscalingGroupName := "grp" },
        [AwsEffect.startShutdown], true) :=
  (handleMessage_accept _ _ "raw" _ _ _ _ none none rfl rfl rfl).1

/-- Effects of a successful-resolution forward inside `handleMessage`:
only `getHost`, POSTs to the resolved url with the raw body, and sleeps. -/
theorem forwardMessage_mem (cfg : AwsConfig) (tid body host : String)
    (post : String → Nat → Option String) (u : Nat → ℚ) (e : AwsEffect)
    (he : e ∈ (forwardMessage cfg tid body (Except.ok host) post u).1) :
    e = AwsEffect.getHost tid
    ∨ e = AwsEffect.httpPost (forwardURL host cfg.port) body
    ∨ ∃ d, e = AwsEffect.sleep d := by
  simp only [forwardMessage, List.mem_cons] at he
  rcases he with h | h
  · exact Or.inl h
  · rcases forwardAttempts_mem cfg.backOff (forwardURL host cfg.port) body
      (post host) u _ _ e h with h' | h'
    · exact Or.inr (Or.inl h')
    · exact Or.inr (Or.inr h')

/-- C3: a decoded message with matching hook name and terminating transition
but a foreign instance id: with a port configured, `handleMessage` resolves
the host exactly once, posts only the raw body to the resolved host and
port, never triggers the local `StartShutdown`, leaves the state unchanged
and returns true — so the SQS loop deletes the message even if the forward
failed; with port 0 the message is rejected. -/
theorem handleMessage_forwardRoute (cfg : AwsConfig) (st : AwsState)
    (body : String) (m : LifecycleHookMsg) (host : String)
    (post : String → Nat → Option String) (u : Nat → ℚ)
    (hhook : m.lifecycleHookName = cfg.lifecycleHookName)
    (htrans : m.lifecycleTransition = "autoscaling:EC2_INSTANCE_TERMINATING")
    (hinst : m.ec2InstanceId ≠ cfg.instanceId) :
    (cfg.port = 0 →
      handleMessage cfg st body (some m) (Except.ok host) post u = (st, [], false))
    ∧ (cfg.port ≠ 0 →
      let h := handleMessage cfg st body (some m) (Except.ok host) post u
      h.1 = st ∧ h.2.2 = true
      ∧ h.2.1.count (AwsEffect.getHost m.ec2InstanceId) = 1
      ∧ AwsEffect.startShutdown ∉ h.2.1
      ∧ (∀ url b', AwsEffect.httpPost url b' ∈ h.2.1 →
          url = forwardURL host cfg.port ∧ b' = body)
      ∧ (∀ recvErr deleteRes,
          (listenSQSIter cfg st recvErr (some body) (some m) (Except.ok host)
            post u deleteRes).2.count AwsEffect.deleteMessage = 1)) := by
  constructor
  · intro hp
    simp [handleMessage, hhook, htrans, hinst, hp]
  · intro hp
    have h1 : handleMessage cfg st body (some m) (Except.ok host) post u =
        (st, (forwardMessage cfg m.ec2InstanceId body (Except.ok host) post u).1
          ++ (match (forwardMessage cfg m.ec2InstanceId body (Except.ok host) post u).2 with
            | some e => [AwsEffect.reportError e]
            | none => []), true) := by
      simp [handleMessage, hhook, htrans, hinst, hp]
    have hmemFwd : ∀ e, e ∈ (forwardMessage cfg m.ec2InstanceId body
        (Except.ok host) post u).1 →
        e = AwsEffect.getHost m.ec2InstanceId
        ∨ e = AwsEffect.httpPost (forwardURL host cfg.port) body
        ∨ ∃ d, e = AwsEffect.sleep d :=
      fun e he => forwardMessage_mem cfg m.ec2InstanceId body host post u e he
    have hmemRep : ∀ e, e ∈ (match (forwardMessage cfg m.ec2InstanceId body
        (Except.ok host) post u).2 with
          | some e => [AwsEffect.reportError e]
          | none => []) → ∃ s, e = AwsEffect.reportError s := by
      intro e he
      cases hres : (forwardMessage cfg m.ec2InstanceId body (Except.ok host) post u).2 with
      | none => rw [hres] at he; simp at he
      | some s => rw [hres] at he; simp at he; exact ⟨s, he⟩
    rw [h1]
    refine ⟨rfl, rfl, ?_, ?_, ?_, ?_⟩
    · -- exactly one getHost
      rw [List.count_append]
      have hc2 : (match (forwardMessage cfg m.ec2InstanceId body (Except.ok host) post u).2 with
          | some e => [AwsEffect.reportError e]
          | none => []).count (AwsEffect.getHost m.ec2InstanceId) = 0 := by
        rw [List.count_eq_zero]
        intro hmem
        obtain ⟨s, hs⟩ := hmemRep _ hmem
        simp at hs
      rw [hc2]
      simp only [forwardMessage, List.count_cons_self]
      have : (forwardAttempts cfg.backOff (forwardURL host cfg.port) body (post host) u
          0 (cfg.numForwardRetries + 1)).1.count (AwsEffect.getHost m.ec2InstanceId) = 0 := by
        rw [List.count_eq_zero]
        intro hmem
        rcases forwardAttempts_mem cfg.backOff (forwardURL host cfg.port) body
          (post host) u _ _ _ hmem with h | ⟨d, h⟩ <;> simp at h
      rw [this]
    · -- no local StartShutdown
      intro hmem
      rw [List.mem_append] at hmem
      rcases hmem with h | h
      · rcases hmemFwd _ h with h' | h' | ⟨d, h'⟩ <;> simp at h'
      · obtain ⟨s, hs⟩ := hmemRep _ h
        simp at hs
    · -- every POST goes to the resolved host and carries the raw body
      intro url b' hmem
      rw [List.mem_append] at hmem
      rcases hmem with h | h
      · rcases hmemFwd _ h with h' | h' | ⟨d, h'⟩
        · simp at h'
        · injection h' with hu hb
          exact ⟨hu, hb⟩
        · simp at h'
      · obtain ⟨s, hs⟩ := hmemRep _ h
        simp at hs
    · -- deleted exactly once even when the forward failed
      intro recvErr deleteRes
      have hcFwd : ((forwardMessage cfg m.ec2InstanceId body (Except.ok host) post u).1
          ++ (match (forwardMessage cfg m.ec2InstanceId body (Except.ok host) post u).2 with
            | some e => [AwsEffect.reportError e]
            | none => [])).count AwsEffect.deleteMessage = 0 := by
        rw [List.count_eq_zero, List.mem_append]
        intro hmem
        rcases hmem with h | h
        · rcases hmemFwd _ h with h' | h' | ⟨d, h'⟩ <;> simp at h'
        · obtain ⟨s, hs⟩ := hmemRep _ h
          simp at hs
      simp only [listenSQSIter, h1]
      rw [List.count_append] at hcFwd
      cases recvErr <;>
        simp [List.count_append, List.count_cons] <;> omega

/-- C3 witness: a foreign-instance message with port 8080 and a failing
target is forwarded, not shut down locally, and still deleted. -/
theorem handleMessage_forwardRoute_witness :
    (handleMessage
        { lifecycleHookName := "hook", instanceId := "i-1", port := 8080,
          numForwardRetries := 0, numServeRetries := 3, backOff := 500 }
        { lifecycleActionToken := "", autoscalingGroupName := "" } "raw"
        (some { autoScalingGroupName := "grp", service := "", timeField := "",
                accountId := "", lifecycleTransition := "autoscaling:EC2_INSTANCE_TERMINATING",
                requestId := "", lifecycleActionToken := "tok",
                ec2InstanceId := "i-2", lifecycleHookName := "hook" })
        (Except.ok "10.0.0.7") (fun _ _ => some "refused") (fun _ => 0)).2.2 = true
    ∧ AwsEffect.startShutdown ∉ (handleMessage
        { lifecycleHookName := "hook", instanceId := "i-1", port := 8080,
          numForwardRetries := 0, numServeRetries := 3, backOff := 500 }
        { lifecycleActionToken := "", autoscalingGroupName := "" } "raw"
        (some { autoScalingGroupName := "grp", service := "", timeField := "",
                accountId := "", lifecycleTransition := "autoscaling:EC2_INSTANCE_TERMINATING",
                requestId := "", lifecycleActionToken := "tok",
                ec2InstanceId := "i-2", lifecycleHookName := "hook" })
        (Except.ok "10.0.0.7") (fun _ _ => some "refused") (fun _ => 0)).2.1 := by
  have h := (handleMessage_forwardRoute
    { lifecycleHookName := "hook", instanceId := "i-1", port := 8080,
      numForwardRetries := 0, numServeRetries := 3, backOff := 500 }
    { lifecycleActionToken := "", autoscalingGroupName := "" } "raw"
    { autoScalingGroupName := "grp", service := "", timeField := "",
      accountId := "", lifecycleTransition := "autoscaling:EC2_INSTANCE_TERMINATING",
      requestId := "", lifecycleActionToken := "tok",
      ec2InstanceId := "i-2", lifecycleHookName := "hook" }
    "10.0.0.7" (fun _ _ => some "refused") (fun _ => 0) rfl rfl (by decide)).2
    (by decide)
  exact ⟨h.2.1, h.2.2.2.1⟩

/-- C6: an undecodable message, a foreign hook name, or a non-terminating
transition is rejected: `handleMessage` returns false with no effects and an
unchanged state, the HTTP path answers 400, and the SQS loop does not delete
the message; moreover the token/group fields are mutated only when a
message is accepted. -/
theorem handleMessage_reject (cfg : AwsConfig) (st : AwsState) (body : String)
    (getHost : Except String String) (post : String → Nat → Option String)
    (u : Nat → ℚ) :
    (∀ decode, (decode = none
        ∨ ∃ m, decode = some m
          ∧ (m.lifecycleHookName ≠ cfg.lifecycleHookName
            ∨ m.lifecycleTransition ≠ "autoscaling:EC2_INSTANCE_TERMINATING")) →
      handleMessage cfg st body decode getHost post u = (st, [], false)
      ∧ serveHTTP cfg st (Except.ok body) decode getHost post u = (st, [], 400)
      ∧ ∀ recvErr deleteRes, AwsEffect.deleteMessage ∉
          (listenSQSIter cfg st recvErr (some body) decode getHost post u
            deleteRes).2)
    ∧ (∀ decode, (handleMessage cfg st body decode getHost post u).1 ≠ st →
        ∃ m, decode = some m
          ∧ m.lifecycleHookName = cfg.lifecycleHookName
          ∧ m.lifecycleTransition = "autoscaling:EC2_INSTANCE_TERMINATING"
          ∧ m.ec2InstanceId = cfg.instanceId) := by
  constructor
  · intro decode hdec
    have h1 : handleMessage cfg st body decode getHost post u = (st, [], false) := by
      rcases hdec with h | ⟨m, hm, hcase⟩
      · subst h; rfl
      · subst hm
        rcases hcase with h | h
        · simp [handleMessage, h]
        · by_cases hhook : m.lifecycleHookName = cfg.lifecycleHookName
          · simp [handleMessage, hhook, h]
          · simp [handleMessage, hhook]
    refine ⟨h1, by simp [serveHTTP, h1], ?_⟩
    intro recvErr deleteRes
    simp only [listenSQSIter, h1]
    cases recvErr <;> simp
  · intro decode hne
    cases decode with
    | none => exact absurd rfl hne
    | some m =>
      by_cases hhook : m.lifecycleHookName = cfg.lifecycleHookName
      · by_cases htrans : m.lifecycleTransition = "autoscaling:EC2_INSTANCE_TERMINATING"
        · by_cases hinst : m.ec2InstanceId = cfg.instanceId
          · exact ⟨m, rfl, hhook, htrans, hinst⟩
          · exfalso
            apply hne
            by_cases hp : cfg.port = 0 <;>
              simp [handleMessage, hhook, htrans, hinst, hp]
        · exfalso
          apply hne
          simp [handleMessage, hhook, htrans]
      · exfalso
        apply hne
        simp [handleMessage, hhook]

/-- No `reportError` appears among a resolved forward's own effects. -/
theorem forwardMessage_no_report (cfg : AwsConfig) (tid body host : String)
    (post : String → Nat → Option String) (u : Nat → ℚ) (s : String) :
    AwsEffect.reportError s ∉
      (forwardMessage cfg tid body (Except.ok host) post u).1 := by
  intro hmem
  rcases forwardMessage_mem cfg tid body host post u _ hmem with h | h | ⟨d, h⟩ <;>
    simp at h

/-- C5: the forward loop makes at most `NumForwardRetries+1` POST attempts
and stops at the first success; `clean` turns a configured `-1` into 0, so
exactly one attempt is made; when the target fails the first `k` attempts
and then succeeds (with `NumForwardRetries ≥ k`) the forward succeeds with a
nil error; when every attempt fails the last attempt's error is returned and
reported exactly once by `handleMessage`; a host-resolution failure aborts
before any POST. -/
theorem forwardMessage_retries (cfg : AwsConfig) (tid body host : String)
    (post : String → Nat → Option String) (u : Nat → ℚ) (es : Nat → String) :
    ((forwardMessage cfg tid body (Except.ok host) post u).1.count
        (AwsEffect.httpPost (forwardURL host cfg.port) body)
      ≤ cfg.numForwardRetries + 1)
    ∧ (∀ k, k ≤ cfg.numForwardRetries →
        (∀ j, j < k → ∃ e, post host j = some e) → post host k = none →
        ((forwardMessage cfg tid body (Except.ok host) post u).1.count
            (AwsEffect.httpPost (forwardURL host cfg.port) body) = k + 1)
        ∧ (forwardMessage cfg tid body (Except.ok host) post u).2 = none)
    ∧ ((∀ j, j ≤ cfg.numForwardRetries → post host j = some (es j)) →
        (forwardMessage cfg tid body (Except.ok host) post u).2 =
          some (es cfg.numForwardRetries))
    ∧ (∀ c : AwsRawNums, c.numForwardRetries = -1 → c.clean.numForwardRetries = 0)
    ∧ (cfg.numForwardRetries = 0 →
        (forwardMessage cfg tid body (Except.ok host) post u).1.count
          (AwsEffect.httpPost (forwardURL host cfg.port) body) = 1)
    ∧ (∀ e, forwardMessage cfg tid body (Except.error e) post u =
        ([AwsEffect.getHost tid], some e))
    ∧ (∀ (m : LifecycleHookMsg) (st : AwsState),
        m.lifecycleHookName = cfg.lifecycleHookName →
        m.lifecycleTransition = "autoscaling:EC2_INSTANCE_TERMINATING" →
        m.ec2InstanceId ≠ cfg.instanceId → cfg.port ≠ 0 →
        (∀ j, j ≤ cfg.numForwardRetries → post host j = some (es j)) →
        (handleMessage cfg st body (some m) (Except.ok host) post u).2.1.count
          (AwsEffect.reportError (es cfg.numForwardRetries)) = 1) := by
  have hcount : ∀ l : List AwsEffect,
      (AwsEffect.getHost tid :: l).count
        (AwsEffect.httpPost (forwardURL host cfg.port) body) =
      l.count (AwsEffect.httpPost (forwardURL host cfg.port) body) :=
    fun l => List.count_cons_of_ne (by simp) l
  refine ⟨?_, ?_, ?_, ?_, ?_, ?_, ?_⟩
  · simp only [forwardMessage, hcount]
    exact forwardAttempts_count_le _ _ _ _ _ _ _
  · intro k hk hfail hsucc
    have h := forwardAttempts_firstSuccess cfg.backOff (forwardURL host cfg.port)
      body (post host) u k 0 (cfg.numForwardRetries + 1) (by omega)
      (fun j hj => by simpa using hfail j hj) (by simpa using hsucc)
    constructor
    · simp only [forwardMessage, hcount]
      exact h.1
    · simp only [forwardMessage]
      exact h.2
  · intro hall
    have h := forwardAttempts_allFail cfg.backOff (forwardURL host cfg.port)
      body (post host) u es (cfg.numForwardRetries + 1) 0 (by omega)
      (fun j hj => by simpa using hall j (by omega))
    simp only [forwardMessage]
    simpa using h.2
  · intro c hc
    simp [AwsRawNums.clean, hc]
  · intro h0
    simp only [forwardMessage, hcount, h0]
    cases hpost : post host 0 with
    | none => simp [forwardAttempts, hpost]
    | some e => simp [forwardAttempts, hpost, count_post_cons]
  · intro e
    rfl
  · intro m st hhook htrans hinst hp hall
    have hres : (forwardMessage cfg m.ec2InstanceId body (Except.ok host) post u).2 =
        some (es cfg.numForwardRetries) := by
      have h := forwardAttempts_allFail cfg.backOff (forwardURL host cfg.port)
        body (post host) u es (cfg.numForwardRetries + 1) 0 (by omega)
        (fun j hj => by simpa using hall j (by omega))
      simp only [forwardMessage]
      simpa using h.2
    have h1 : (handleMessage cfg st body (some m) (Except.ok host) post u).2.1 =
        (forwardMessage cfg m.ec2InstanceId body (Except.ok host) post u).1
          ++ [AwsEffect.reportError (es cfg.numForwardRetries)] := by
      simp [handleMessage, hhook, htrans, hinst, hp, hres]
    rw [h1, List.count_append]
    have h0 : (forwardMessage cfg m.ec2InstanceId body (Except.ok host) post u).1.count
        (AwsEffect.reportError (es cfg.numForwardRetries)) = 0 :=
      List.count_eq_zero.mpr (forwardMessage_no_report cfg m.ec2InstanceId body host
        post u (es cfg.numForwardRetries))
    rw [h0, List.count_singleton]
    simp

/-- C5 witness: two retries allowed, failure then success on the second
attempt: two POSTs, nil error; and `clean` maps `-1` to no retries. -/
theorem forwardMessage_retries_witness :
    ((forwardMessage
        { lifecycleHookName := "hook", instanceId := "i-1", port := 8080,
          numForwardRetries := 2, numServeRetries := 3, backOff := 500 }
        "i-2" "raw" (Except.ok "10.0.0.7")
        (fun _ j => if j = 0 then some "refused" else none) (fun _ => 0)).1.count
        (AwsEffect.httpPost (forwardURL "10.0.0.7" 8080) "raw") = 2
      ∧ (forwardMessage
        { lifecycleHookName := "hook", instanceId := "i-1", port := 8080,
          numForwardRetries := 2, numServeRetries := 3, backOff := 500 }
        "i-2" "raw" (Except.ok "10.0.0.7")
        (fun _ j => if j = 0 then some "refused" else none) (fun _ => 0)).2 = none)
    ∧ (AwsRawNums.clean
        { pingTime := 0, backOff := 0, numServeRetries := 0,
          numForwardRetries := -1 }).numForwardRetries = 0 := by
  have h := forwardMessage_retries
    { lifecycleHookName := "hook", instanceId := "i-1", port := 8080,
      numForwardRetries := 2, numServeRetries := 3, backOff := 500 }
    "i-2" "raw" "10.0.0.7"
    (fun _ j => if j = 0 then some "refused" else none) (fun _ => 0) (fun _ => "")
  refine ⟨h.2.1 1 (by decide) ?_ (by decide), h.2.2.2.1 _ (by decide)⟩
  intro j hj
  have hj0 : j = 0 := by omega
  subst hj0
  exact ⟨"refused", rfl⟩

/-- C8: the heartbeat goroutine of `ShutdownStart` sends its first heartbeat
(with the stored group and token) before any wait on the ticker, and
`ShutdownStart` returns nil; `ShutdownFinish` stops the ticker first, then
issues exactly one `CompleteLifecycleAction` with result `"CONTINUE"` and
the stored group/token, returning that call's error without retrying. -/
theorem shutdown_heartbeat_order (hookName : String) (st : AwsState)
    (hb : Nat → Option String) (completeErr : Option String) (n : Nat)
    (hn : 1 ≤ n) :
    ((shutdownStart st hb n).1.head? =
      some (AwsEffect.sendHeartbeat st.autoscalingGroupName st.lifecycleActionToken))
    ∧ (shutdownStart st hb n).2 = none
    ∧ shutdownFinish hookName st completeErr =
      ([AwsEffect.stopTicker,
        AwsEffect.completeLifecycleAction
          (apiCompleteInput hookName st.autoscalingGroupName st.lifecycleActionToken)],
        completeErr)
    ∧ (apiCompleteInput hookName st.autoscalingGroupName
        st.lifecycleActionToken).lifecycleActionResult = "CONTINUE"
    ∧ ((shutdownFinish hookName st completeErr).1.count
        (AwsEffect.completeLifecycleAction
          (apiCompleteInput hookName st.autoscalingGroupName st.lifecycleActionToken))
        = 1) := by
  refine ⟨?_, rfl, rfl, rfl, ?_⟩
  · obtain ⟨m, rfl⟩ : ∃ m, n = m + 1 := ⟨n - 1, by omega⟩
    simp only [shutdownStart, heartbeatTrace]
    rw [List.range_succ_eq_map]
    simp [heartbeatIter]
  · show ([AwsEffect.stopTicker, _] : List AwsEffect).count _ = 1
    rw [List.count_cons_of_ne (by simp), List.count_cons_self, List.count_nil]

/-- C8 witness: one observed heartbeat iteration on concrete state. -/
theorem shutdown_heartbeat_order_witness :
    (shutdownStart { lifecycleActionToken := "tok", autoscalingGroupName := "grp" }
      (fun _ => none) 1).1.head? = some (AwsEffect.sendHeartbeat "grp" "tok") :=
  (shutdown_heartbeat_order "hook"
    { lifecycleActionToken := "tok", autoscalingGroupName := "grp" }
    (fun _ => none) none 1 (by decide)).1

/-- C7 counterexample: with `BackOff = 1` and jitter draw `0.5` (Float64 draw
`0.0`, so every float operation is exact), attempt 0 yields 0 ms — not the
claimed `0.5` ms and below the claimed interval `[0.5, 1.5)` — and attempts
1 and 2 both yield 1 ms, so for a fixed jitter the delay is not strictly
monotone in the attempt index. -/
theorem backOffDuration_counterexample :
    backOffMillis 1 0 0 = 0
    ∧ (backOffMillis 1 0 0 : ℚ) ≠ 1 * ((0 : ℚ) + 1) * (0 + 1/2)
    ∧ ¬ (1/2 * 1 * ((0 : ℚ) + 1) ≤ (backOffMillis 1 0 0 : ℚ))
    ∧ backOffMillis 1 0 1 = 1
    ∧ backOffMillis 1 0 2 = 1 := by
  refine ⟨?_, ?_, ?_, ?_, ?_⟩ <;> norm_num [backOffMillis, durTrunc]

/-- C7 (amended): for `BackOff = B > 0`, attempt `i`, and Float64 draw
`u ∈ [0,1)` (jitter `r = u + 0.5 ∈ [0.5,1.5)`), the delay is
`B*(i+1)*r` truncated to whole milliseconds; it therefore lies in
`(0.5*B*(i+1) − 1, 1.5*B*(i+1))` ms, is non-decreasing in the attempt for a
fixed draw and strictly increasing whenever `B*r ≥ 1` (so in particular at
the default `B = 500`), and both the forward retry loop and the HTTP-bind
retry loop sleep exactly `backOffDuration` after a failed attempt `i`. -/
theorem backOffDuration_amended (B u : ℚ) (i : Nat)
    (hB : 0 < B) (hu0 : 0 ≤ u) (hu1 : u < 1) :
    (backOffMillis B u i = ⌊B * ((i : ℚ) + 1) * (u + 1/2)⌋)
    ∧ ((backOffMillis B u i : ℚ) ≤ B * ((i : ℚ) + 1) * (u + 1/2))
    ∧ (B * ((i : ℚ) + 1) * (u + 1/2) - 1 < (backOffMillis B u i : ℚ))
    ∧ ((backOffMillis B u i : ℚ) < 3/2 * B * ((i : ℚ) + 1))
    ∧ (1/2 * B * ((i : ℚ) + 1) - 1 < (backOffMillis B u i : ℚ))
    ∧ (∀ j : Nat, i ≤ j → backOffMillis B u i ≤ backOffMillis B u j)
    ∧ (1 ≤ B * (u + 1/2) → ∀ j : Nat, i < j →
        backOffMillis B u i < backOffMillis B u j)
    ∧ (∀ (url body : String) (port : Nat) (post bindRes : Nat → Option String)
        (us : Nat → ℚ) (fuel : Nat) (e e' : String),
        post i = some e → bindRes i = some e' →
        ((forwardAttempts B url body post us i (fuel + 1)).1.get? 1 =
          some (AwsEffect.sleep (backOffDuration B (us i) i)))
        ∧ ((listenHTTPAttempts B port bindRes us i (fuel + 1)).1.get? 1 =
          some (AwsEffect.sleep (backOffDuration B (us i) i)))) := by
  have hi1 : (0 : ℚ) < (i : ℚ) + 1 := by positivity
  have hr0 : (0 : ℚ) < u + 1/2 := by linarith
  have hBi : (0 : ℚ) < B * ((i : ℚ) + 1) := mul_pos hB hi1
  have hx0 : (0 : ℚ) ≤ B * ((i : ℚ) + 1) * (u + 1/2) := by positivity
  have hdef : backOffMillis B u i = ⌊B * ((i : ℚ) + 1) * (u + 1/2)⌋ := by
    unfold backOffMillis durTrunc
    rw [if_pos hx0]
  have hle : (backOffMillis B u i : ℚ) ≤ B * ((i : ℚ) + 1) * (u + 1/2) := by
    rw [hdef]; exact Int.floor_le _
  have hgt : B * ((i : ℚ) + 1) * (u + 1/2) - 1 < (backOffMillis B u i : ℚ) := by
    rw [hdef]; exact Int.sub_one_lt_floor _
  refine ⟨hdef, hle, hgt, ?_, ?_, ?_, ?_, ?_⟩
  · have key : (0 : ℚ) < (1 - u) * (B * ((i : ℚ) + 1)) :=
      mul_pos (by linarith) hBi
    nlinarith [key]
  · have key : (0 : ℚ) ≤ B * ((i : ℚ) + 1) * u := by positivity
    nlinarith [key]
  · intro j hij
    have hji : (i : ℚ) ≤ (j : ℚ) := by exact_mod_cast hij
    have hxj : (0 : ℚ) ≤ B * ((j : ℚ) + 1) * (u + 1/2) := by positivity
    have hdefj : backOffMillis B u j = ⌊B * ((j : ℚ) + 1) * (u + 1/2)⌋ := by
      unfold backOffMillis durTrunc
      rw [if_pos hxj]
    rw [hdef, hdefj]
    apply Int.floor_le_floor
    have key : (0 : ℚ) ≤ B * ((j : ℚ) - (i : ℚ)) * (u + 1/2) :=
      mul_nonneg (mul_nonneg hB.le (by linarith)) hr0.le
    nlinarith [key]
  · intro hBr j hij
    have hji : (i : ℚ) + 1 ≤ (j : ℚ) := by exact_mod_cast hij
    have hxj : (0 : ℚ) ≤ B * ((j : ℚ) + 1) * (u + 1/2) := by positivity
    have hdefj : backOffMillis B u j = ⌊B * ((j : ℚ) + 1) * (u + 1/2)⌋ := by
      unfold backOffMillis durTrunc
      rw [if_pos hxj]
    rw [hdef, hdefj]
    rw [Int.lt_iff_add_one_le, Int.le_floor]
    push_cast
    have hfl : (⌊B * ((i : ℚ) + 1) * (u + 1/2)⌋ : ℚ) ≤ B * ((i : ℚ) + 1) * (u + 1/2) :=
      Int.floor_le _
    have key : B * (u + 1/2) * 1 ≤ B * (u + 1/2) * ((j : ℚ) - (i : ℚ)) := by
      apply mul_le_mul_of_nonneg_left (by linarith)
      positivity
    nlinarith [key]
  · intro url body port post bindRes us fuel e e' hpost hbind
    constructor
    · simp [forwardAttempts, hpost]
    · simp [listenHTTPAttempts, hbind]

/-- C7 amended-theorem witness: at the defaults `B = 500`, draw `0`, the
first backoff is 250 ms, within the amended bounds, and attempt 1 sleeps
longer than attempt 0. -/
theorem backOffDuration_amended_witness :
    backOffMillis 500 0 0 = ⌊(500 : ℚ) * ((0 : ℚ) + 1) * (0 + 1/2)⌋
    ∧ backOffMillis 500 0 0 < backOffMillis 500 0 1 := by
  have h := backOffDuration_amended 500 0 0 (by norm_num) (by norm_num) (by norm_num)
  exact ⟨h.1, h.2.2.2.2.2.2.1 (by norm_num) 1 (by norm_num)⟩

/-- C9 counterexample: an accepted queue message whose `DeleteMessage` call
fails with `"delete-err"`: the delete is attempted, yet its error is never
passed to `ReportError` — the iteration's trace contains no
`reportError "delete-err"`. -/
theorem listenSQS_deleteError_counterexample :
    AwsEffect.deleteMessage ∈
      (listenSQSIter
        { lifecycleHookName := "hook", instanceId := "i-1", port := 0,
          numForwardRetries := 10, numServeRetries := 3, backOff := 500 }
        { lifecycleActionToken := "", autoscalingGroupName := "" }
        none (some "raw")
        (some { autoScalingGroupName := "grp", service := "", timeField := "",
                accountId := "", lifecycleTransition := "autoscaling:EC2_INSTANCE_TERMINATING",
                requestId := "", lifecycleActionToken := "tok",
                ec2InstanceId := "i-1", lifecycleHookName := "hook" })
        (Except.error "nohost") (fun _ _ => none) (fun _ => 0)
        (some "delete-err")).2
    ∧ AwsEffect.reportError "delete-err" ∉
      (listenSQSIter
        { lifecycleHookName := "hook", instanceId := "i-1", port := 0,
          numForwardRetries := 10, numServeRetries := 3, backOff := 500 }
        { lifecycleActionToken := "", autoscalingGroupName := "" }
        none (some "raw")
        (some { autoScalingGroupName := "grp", service := "", timeField := "",
                accountId := "", lifecycleTransition := "autoscaling:EC2_INSTANCE_TERMINATING",
                requestId := "", lifecycleActionToken := "tok",
                ec2InstanceId := "i-1", lifecycleHookName := "hook" })
        (Except.error "nohost") (fun _ _ => none) (fun _ => 0)
        (some "delete-err")).2 := by
  constructor <;> decide

/-- C9 (amended): a receive error is reported to the error sink, but the
outcome of the `DeleteMessage` call is discarded: the iteration's behaviour
does not depend on it at all, so a failed delete is never reported. -/
theorem listenSQS_reporting (cfg : AwsConfig) (st : AwsState)
    (recvErr msgBody : Option String) (decode : Option LifecycleHookMsg)
    (getHost : Except String String) (post : String → Nat → Option String)
    (u : Nat → ℚ) :
    (∀ e deleteRes, recvErr = some e →
      AwsEffect.reportError e ∈
        (listenSQSIter cfg st recvErr msgBody decode getHost post u deleteRes).2)
    ∧ (∀ deleteRes deleteRes',
      listenSQSIter cfg st recvErr msgBody decode getHost post u deleteRes =
        listenSQSIter cfg st recvErr msgBody decode getHost post u deleteRes') := by
  constructor
  · intro e deleteRes hrecv
    subst hrecv
    cases msgBody with
    | none => simp [listenSQSIter]
    | some body => simp [listenSQSIter]
  · intro _ _
    rfl

/-- C9 amended-theorem witness: a concrete receive error is reported. -/
theorem listenSQS_reporting_witness :
    AwsEffect.reportError "recv-err" ∈
      (listenSQSIter
        { lifecycleHookName := "hook", instanceId := "i-1", port := 0,
          numForwardRetries := 10, numServeRetries := 3, backOff := 500 }
        { lifecycleActionToken := "", autoscalingGroupName := "" }
        (some "recv-err") none none (Except.error "nohost")
        (fun _ _ => none) (fun _ => 0) none).2 :=
  (listenSQS_reporting _ _ _ none none _ _ _).1 "recv-err" none rfl

/-- C6 witness: a wrong-hook message is rejected with a 400 and no delete. -/
theorem handleMessage_reject_witness :
    handleMessage
        { lifecycleHookName := "hook", instanceId := "i-1", port := 0,
          numForwardRetries := 10, numServeRetries := 3, backOff := 500 }
        { lifecycleActionToken := "t0", autoscalingGroupName := "g0" } "raw"
        (some { autoScalingGroupName := "grp", service := "", timeField := "",
                accountId := "", lifecycleTransition := "autoscaling:EC2_INSTANCE_TERMINATING",
                requestId := "", lifecycleActionToken := "tok",
                ec2InstanceId := "i-1", lifecycleHookName := "other-hook" })
        (Except.error "nohost") (fun _ _ => none) (fun _ => 0) =
      ({ lifecycleActionToken := "t0", autoscalingGroupName := "g0" }, [], false) :=
  ((handleMessage_reject _ _ "raw" _ _ _).1 _
    (Or.inr ⟨_, rfl, Or.inl (by decide)⟩)).1
